import Mathlib

/-!
Verification development for the `image-search` repository (`search.ts`).

The repository ships two near-duplicate versions of the same script inside
`src/search.ts`: v3.0.1 (first half) and v3.4.0 (second half).  Where the two
versions differ in behaviour (directory enumeration error handling), both are
embedded and named with a version suffix.  Numeric values (`number` in
TypeScript) are modelled as exact real numbers; `Math.sqrt` is `Real.sqrt`.
Machine-level floating-point rounding is not modelled.
-/

namespace ImageSearch

/-! ### Data model (`interface DbEntry`, configuration constants) -/

/-- `interface DbEntry { filePath: string; embedding: number[] }`. -/
structure DbEntry where
  filePath : String
  embedding : List ℝ

/-- The per-candidate result object `{ entry, similarity }` built in
`search` (v3.4.0, line 529-532). -/
structure Match where
  entry : DbEntry
  similarity : ℝ

/-- `const SIMILARITY_THRESHOLD = 0.28` (v3.4.0, line 309). -/
noncomputable def SIMILARITY_THRESHOLD : ℝ := 0.28

/-- `const DB_PATH = './db.json'` (both versions). -/
def DB_PATH : String := "./db.json"

/-! ### Cosine similarity (`cosineSimilarity`, identical in both versions) -/

/-- `v1.reduce((sum, a, i) => sum + a * v2[i], 0)`: the dot product,
folding from the left with accumulator `0`.  The source indexes `v2` by
`v1`'s positions; vectors in a store share one dimensionality (spec §3),
which the `zip` realises for equal-length vectors. -/
noncomputable def dotProduct (v1 v2 : List ℝ) : ℝ :=
  (v1.zip v2).foldl (fun sum p => sum + p.1 * p.2) 0

/-- `v.reduce((sum, a) => sum + a * a, 0)`: the sum of squares under the
`Math.sqrt` in `cosineSimilarity`. -/
noncomputable def sumSquares (v : List ℝ) : ℝ :=
  v.foldl (fun sum a => sum + a * a) 0

/-- `cosineSimilarity(v1, v2)` (v3.4.0 lines 372-382, v3.0.1 lines 95-101):
dot product over the product of Euclidean magnitudes, with the guard
`if (magnitude1 === 0 || magnitude2 === 0) return 0`. -/
noncomputable def cosineSimilarity (v1 v2 : List ℝ) : ℝ :=
  let dot := dotProduct v1 v2
  let magnitude1 := Real.sqrt (sumSquares v1)
  let magnitude2 := Real.sqrt (sumSquares v2)
  if magnitude1 = 0 ∨ magnitude2 = 0 then 0 else dot / (magnitude1 * magnitude2)

/-! ### Ranking pipeline (`search`, v3.4.0 lines 504-559) -/

/-- `db.map(entry => ({ entry, similarity: cosineSimilarity(queryEmbedding,
entry.embedding) }))` (v3.4.0 lines 529-532). -/
noncomputable def allMatches (db : List DbEntry) (queryEmbedding : List ℝ) : List Match :=
  db.map (fun entry => { entry := entry,
                         similarity := cosineSimilarity queryEmbedding entry.embedding })

/-- The order produced by the comparator `(a, b) => b.similarity - a.similarity`:
`a` may precede `b` exactly when `b.similarity ≤ a.similarity`. -/
def matchLe (a b : Match) : Prop := b.similarity ≤ a.similarity

noncomputable instance : DecidableRel matchLe :=
  fun _ _ => Real.decidableLE _ _

instance : IsTotal Match matchLe :=
  ⟨fun a b => le_total b.similarity a.similarity⟩

instance : IsTrans Match matchLe :=
  ⟨fun _ _ _ hab hbc => le_trans hbc hab⟩

/-- `allMatches.sort((a, b) => b.similarity - a.similarity)` (v3.4.0 line 533).
`Array.prototype.sort` is a stable sort (ES2019); insertion sort with the
same descending-score key is stable and therefore produces the identical
list. -/
noncomputable def sortMatches (l : List Match) : List Match :=
  List.insertionSort matchLe l

/-- `allMatches.filter(match => match.similarity >= SIMILARITY_THRESHOLD)`
applied to the sorted list (v3.4.0 line 536; the sort on line 533 is
in-place, so `allMatches` is already sorted at the filter). -/
noncomputable def meaningfulMatches (db : List DbEntry) (q : List ℝ) : List Match :=
  (sortMatches (allMatches db q)).filter
    (fun m => decide (SIMILARITY_THRESHOLD ≤ m.similarity))

/-- `l.slice(0, n)` for an integer `n` (ECMAScript semantics): a
non-negative end index takes a prefix, a negative end index counts from the
end of the list (clamped at zero). -/
def jsSlice {α : Type} (l : List α) (n : ℤ) : List α :=
  if 0 ≤ n then l.take n.toNat else l.take (l.length - (-n).toNat)

/-- `meaningfulMatches.slice(0, topN)` (v3.4.0 line 539). -/
noncomputable def topMatches (db : List DbEntry) (q : List ℝ) (topN : ℤ) : List Match :=
  jsSlice (meaningfulMatches db q) topN

/-! ### Store loading and the search outcome (`search`, v3.4.0 lines 504-559) -/

/-- The state of the snapshot file at `DB_PATH`: absent, present but not
parseable by `JSON.parse`, or parsed into records. -/
inductive DbFileState where
  | missing : DbFileState
  | unparsable : DbFileState
  | parsed (db : List DbEntry) : DbFileState

/-- The message printed by the single `catch` around
`fs.readFile(DB_PATH)` + `JSON.parse` (v3.4.0 lines 509-516): both a
missing file (readFile throws) and an unparsable file (JSON.parse throws)
land in this one handler. -/
def dbNotFoundMsg : String := "Database file not found at " ++ DB_PATH ++ "."

/-- The `try { readFile; JSON.parse } catch { ... return }` prologue of
`search`: one catch block, one error message for both failure modes. -/
def loadDb : DbFileState → Except String (List DbEntry)
  | .missing => .error dbNotFoundMsg
  | .unparsable => .error dbNotFoundMsg
  | .parsed db => .ok db

/-- The observable outcome of one `search` invocation. -/
inductive SearchResult where
  | dbLoadError : SearchResult
  | emptyDb : SearchResult
  | matches (ms : List Match) : SearchResult
  | noMeaningful (best : Option Match) : SearchResult

/-- The `search(query, topN)` function of v3.4.0 (lines 504-559), with the
Embedding Provider's query vector passed in directly (`embedText` is an
external collaborator).  The diagnostic in the no-match branch is
`allMatches[0]` of the already-sorted list, printed only when
`allMatches.length > 0` (lines 552-557). -/
noncomputable def searchModel (file : DbFileState) (queryEmbedding : List ℝ)
    (topN : ℤ) : SearchResult :=
  match loadDb file with
  | .error _ => .dbLoadError
  | .ok db =>
    if db.length = 0 then .emptyDb
    else
      let top := topMatches db queryEmbedding topN
      if 0 < top.length then .matches top
      else .noMeaningful (sortMatches (allMatches db queryEmbedding)).head?

/-! ### Directory enumeration (`findImageFilesRecursive`, both versions) -/

/-- `const IMAGE_EXTENSIONS = ['.png', '.jpg', '.jpeg', '.webp']` (both
versions). -/
def IMAGE_EXTENSIONS : List String := [".png", ".jpg", ".jpeg", ".webp"]

/-- `path.join(dir, name)` for a directory path and a simple entry name. -/
def pathJoin (dir name : String) : String := dir ++ "/" ++ name

/-- `path.extname(name)` (Node.js): the substring from the last `.` of the
basename to the end, empty when there is no `.` or when the only `.` is the
leading character (dotfiles). -/
def extname (name : String) : String :=
  match name.toList.reverse.span (fun c => c ≠ '.') with
  | (_, []) => ""
  | (ext, _ :: rest) => if rest.isEmpty then "" else String.mk ('.' :: ext.reverse)

/-- `String.prototype.toLowerCase` on one ASCII character. -/
def charToLower (c : Char) : Char :=
  if 'A' ≤ c ∧ c ≤ 'Z' then Char.ofNat (c.toNat + 32) else c

/-- `String.prototype.toLowerCase` (ASCII range, which covers the
extension allow-list). -/
def strToLower (s : String) : String := String.mk (s.toList.map charToLower)

/-- `IMAGE_EXTENSIONS.includes(path.extname(name).toLowerCase())` (v3.4.0
line 439, v3.0.1 line 133). -/
def isImageFile (name : String) : Bool :=
  IMAGE_EXTENSIONS.contains (strToLower (extname name))

/-- A file-system tree as seen through `fs.readdir(dir, { withFileTypes:
true })`: each node is a plain file or a directory; `readable = false`
makes `readdir` of that directory throw. -/
inductive FsNode where
  | file (name : String) : FsNode
  | dir (name : String) (readable : Bool) (children : List FsNode) : FsNode

mutual

/-- One entry of the v3.0.1 `findImageFilesRecursive` loop (lines 125-141):
a directory entry recurses (the recursive call catches its own `readdir`
failure and contributes `[]`), a file entry is kept when its extension is
allowed. -/
def findNode301 (parentPath : String) : FsNode → List String
  | .file name => if isImageFile name then [pathJoin parentPath name] else []
  | .dir name readable children =>
    if readable then findChildren301 (pathJoin parentPath name) children else []

/-- The `for (const file of files)` loop of v3.0.1
`findImageFilesRecursive`, in entry order. -/
def findChildren301 (dirPath : String) : List FsNode → List String
  | [] => []
  | c :: cs => findNode301 dirPath c ++ findChildren301 dirPath cs

end

/-- The v3.0.1 `findImageFilesRecursive(dir)` entry point: an unreadable
root (readdir throws) is caught, warned about, and yields `[]`. -/
def findRoot301 : FsNode → List String
  | .file _ => []
  | .dir name readable children =>
    if readable then findChildren301 name children else []

mutual

/-- One entry of the v3.4.0 `findImageFilesRecursive` loop (lines 431-445).
There is no `try`/`catch` in this version: a failing `readdir` in a child
directory rejects the awaited promise and the error propagates. -/
def findNode340 (parentPath : String) : FsNode → Except String (List String)
  | .file name => .ok (if isImageFile name then [pathJoin parentPath name] else [])
  | .dir name readable children =>
    if readable then findChildren340 (pathJoin parentPath name) children
    else .error (pathJoin parentPath name)

/-- The `for (const entry of entries)` loop of v3.4.0
`findImageFilesRecursive`: the first propagated error aborts the whole
enumeration. -/
def findChildren340 (dirPath : String) : List FsNode → Except String (List String)
  | [] => .ok []
  | c :: cs =>
    match findNode340 dirPath c with
    | .error e => .error e
    | .ok xs =>
      match findChildren340 dirPath cs with
      | .error e => .error e
      | .ok ys => .ok (xs ++ ys)

end

/-- The v3.4.0 `findImageFilesRecursive(dir)` entry point: an unreadable
root directory makes the call reject. -/
def findRoot340 : FsNode → Except String (List String)
  | .file name => .error name
  | .dir name readable children =>
    if readable then findChildren340 name children else .error name

/-! ### Indexing (`indexImages`, v3.4.0 lines 454-494, v3.0.1 lines 146-184) -/

/-- `if (limit && processedCount >= limit)` (v3.4.0 line 473, v3.0.1 line
164): JavaScript truthiness makes `limit = 0` (and `undefined`) disable
the cap. -/
def capReached (limit : Option ℤ) (processedCount : ℕ) : Bool :=
  match limit with
  | none => false
  | some v => decide (v ≠ 0 ∧ v ≤ (processedCount : ℤ))

/-- The `for (const filePath of imageFiles)` loop of `indexImages`
(identical in both versions): stop at the cap, otherwise attempt
`embedImage` through the provider, appending a record on success and
skipping the file with a warning on failure. -/
def indexLoop (provider : String → Except String (List ℝ)) (limit : Option ℤ) :
    List String → ℕ → List DbEntry → List DbEntry
  | [], _, db => db
  | f :: rest, processedCount, db =>
    if capReached limit processedCount then db
    else
      match provider f with
      | .ok embedding =>
        indexLoop provider limit rest (processedCount + 1)
          (db ++ [{ filePath := f, embedding := embedding }])
      | .error _ => indexLoop provider limit rest (processedCount + 1) db

/-- The observable outcome of one `indexImages` run. -/
inductive IndexOutcome where
  | noImages : IndexOutcome
  | wrote (db : List DbEntry) : IndexOutcome
  | failed : IndexOutcome

/-- `indexImages(imagesDir, limit)` of v3.4.0 (lines 454-494), paired with
the durable snapshot state before/after the run (`prior` is the existing
`db.json`, the second component of the result is the snapshot after the
run).  An enumeration failure is caught by the outer `try`/`catch`
(lines 490-493): the run logs an error and writes nothing. -/
def indexImages340 (provider : String → Except String (List ℝ)) (limit : Option ℤ)
    (root : FsNode) (prior : Option (List DbEntry)) :
    IndexOutcome × Option (List DbEntry) :=
  match findRoot340 root with
  | .error _ => (.failed, prior)
  | .ok imageFiles =>
    if imageFiles.length = 0 then (.noImages, prior)
    else
      let db := indexLoop provider limit imageFiles 0 []
      (.wrote db, some db)

/-- `indexImages(rootDir, limit)` of v3.0.1 (lines 146-184): enumeration
never throws (the recursion catches per-directory), so the only outcomes
are the empty early return and a written snapshot. -/
def indexImages301 (provider : String → Except String (List ℝ)) (limit : Option ℤ)
    (root : FsNode) (prior : Option (List DbEntry)) :
    IndexOutcome × Option (List DbEntry) :=
  let imageFiles := findRoot301 root
  if imageFiles.length = 0 then (.noImages, prior)
  else
    let db := indexLoop provider limit imageFiles 0 []
    (.wrote db, some db)

/-- The files the index loop attempts before stopping: all of them when
the cap is falsy (`undefined` or `0`), otherwise the first
`limit` many (none for a negative cap). -/
def attemptedFiles (files : List String) (limit : Option ℤ) : List String :=
  match limit with
  | none => files
  | some v => if v = 0 then files else files.take v.toNat

/-- The record produced for one file: `some` on provider success, `none`
on a skipped failure. -/
def embedResult (provider : String → Except String (List ℝ)) (f : String) :
    Option DbEntry :=
  match provider f with
  | .ok embedding => some { filePath := f, embedding := embedding }
  | .error _ => none

/-- Whether the provider succeeds on a file. -/
def embedOk (provider : String → Except String (List ℝ)) (f : String) : Bool :=
  match provider f with
  | .ok _ => true
  | .error _ => false

/-! ### General lemmas about the ranking pipeline -/

lemma mem_take_or_length_take {α : Type} {m : α} {l : List α} (n : ℕ) (hm : m ∈ l) :
    m ∈ l.take n ∨ (l.take n).length = n := by
  by_cases hl : l.length ≤ n
  · left
    rw [List.take_of_length_le hl]
    exact hm
  · right
    rw [List.length_take]
    omega

lemma sortMatches_perm (l : List Match) : (sortMatches l).Perm l :=
  List.perm_insertionSort matchLe l

lemma sortMatches_sorted (l : List Match) : List.Sorted matchLe (sortMatches l) :=
  List.sorted_insertionSort matchLe l

/-- Inserting `x` into `l` with `orderedInsert` does not disturb the
sublist of elements with any one fixed similarity score: the elements the
insertion walks past all have a strictly larger score than `x`, so none of
them shares a score class with `x`. -/
lemma filter_simClass_orderedInsert (c : ℝ) (x : Match) :
    ∀ l : List Match,
      (List.orderedInsert matchLe x l).filter (fun m => decide (m.similarity = c))
        = ((x :: l).filter (fun m => decide (m.similarity = c)))
  | [] => rfl
  | b :: t => by
    by_cases hxb : matchLe x b
    · rw [List.orderedInsert, if_pos hxb]
    · have hlt : x.similarity < b.similarity := lt_of_not_le hxb
      rw [List.orderedInsert, if_neg hxb]
      by_cases hb : b.similarity = c <;> by_cases hx : x.similarity = c
      · exact absurd hlt (by rw [hx, hb]; exact lt_irrefl c)
      · simp [List.filter_cons, hb, hx, filter_simClass_orderedInsert c x t]
      · simp [List.filter_cons, hb, hx, filter_simClass_orderedInsert c x t]
      · simp [List.filter_cons, hb, hx, filter_simClass_orderedInsert c x t]

/-- Stability of the sort: the sorted list restricted to any one score
class is the input list restricted to that class, in the input's order. -/
lemma filter_simClass_sortMatches (c : ℝ) :
    ∀ l : List Match,
      (sortMatches l).filter (fun m => decide (m.similarity = c))
        = l.filter (fun m => decide (m.similarity = c))
  | [] => rfl
  | x :: t => by
    rw [sortMatches, List.insertionSort, filter_simClass_orderedInsert,
      List.filter_cons, List.filter_cons]
    rw [show (List.insertionSort matchLe t).filter (fun m => decide (m.similarity = c))
          = t.filter (fun m => decide (m.similarity = c)) from
        filter_simClass_sortMatches c t]

lemma meaningfulMatches_length (db : List DbEntry) (q : List ℝ) :
    (meaningfulMatches db q).length
      = (allMatches db q).countP (fun m => decide (SIMILARITY_THRESHOLD ≤ m.similarity)) := by
  rw [meaningfulMatches, ← List.countP_eq_length_filter]
  exact (sortMatches_perm (allMatches db q)).countP_eq _

/-! ### General lemmas about the index loop -/

lemma capReached_none (c : ℕ) : capReached none c = false := rfl

lemma capReached_zero (c : ℕ) : capReached (some 0) c = false := by
  simp [capReached]

lemma indexLoop_nocap (provider : String → Except String (List ℝ)) (limit : Option ℤ)
    (hlim : ∀ c, capReached limit c = false) :
    ∀ (files : List String) (c : ℕ) (db : List DbEntry),
      indexLoop provider limit files c db = db ++ files.filterMap (embedResult provider)
  | [], _, db => by simp [indexLoop]
  | f :: rest, c, db => by
    rw [indexLoop, hlim c]
    cases hf : provider f with
    | ok e =>
      simp only [Bool.false_eq_true, if_false]
      rw [indexLoop_nocap provider limit hlim rest (c + 1) _]
      simp [embedResult, hf]
    | error e =>
      simp only [Bool.false_eq_true, if_false]
      rw [indexLoop_nocap provider limit hlim rest (c + 1) _]
      simp [embedResult, hf]

lemma indexLoop_capped (provider : String → Except String (List ℝ)) (v : ℤ) (hv : v ≠ 0) :
    ∀ (files : List String) (c : ℕ) (db : List DbEntry),
      indexLoop provider (some v) files c db
        = db ++ (files.take (v - c).toNat).filterMap (embedResult provider)
  | [], _, db => by simp [indexLoop]
  | f :: rest, c, db => by
    by_cases hcap : v ≤ (c : ℤ)
    · have htake : (v - (c : ℤ)).toNat = 0 := by omega
      have hcr : capReached (some v) c = true := by
        simp [capReached, hv, hcap]
      rw [indexLoop, hcr]
      simp [htake]
    · have hcr : capReached (some v) c = false := by
        simp [capReached]
        omega
      have htake : (v - (c : ℤ)).toNat = (v - ((c : ℤ) + 1)).toNat + 1 := by omega
      rw [indexLoop, hcr]
      cases hf : provider f with
      | ok e =>
        simp only [Bool.false_eq_true, if_false]
        rw [indexLoop_capped provider v hv rest (c + 1) _, htake,
          List.take_succ_cons]
        simp [embedResult, hf]
      | error e =>
        simp only [Bool.false_eq_true, if_false]
        rw [indexLoop_capped provider v hv rest (c + 1) _, htake,
          List.take_succ_cons]
        simp [embedResult, hf]

/-- The index loop, started fresh, produces exactly the records of the
attempted files whose embedding succeeded, in attempt order. -/
lemma indexLoop_eq_attempted (provider : String → Except String (List ℝ))
    (limit : Option ℤ) (files : List String) :
    indexLoop provider limit files 0 []
      = (attemptedFiles files limit).filterMap (embedResult provider) := by
  cases limit with
  | none =>
    rw [indexLoop_nocap provider none capReached_none files 0 []]
    rfl
  | some v =>
    by_cases hv : v = 0
    · subst hv
      rw [indexLoop_nocap provider (some 0) capReached_zero files 0 []]
      simp [attemptedFiles]
    · rw [indexLoop_capped provider v hv files 0 []]
      simp [attemptedFiles, hv]

lemma map_filePath_filterMap (provider : String → Except String (List ℝ)) :
    ∀ files : List String,
      (files.filterMap (embedResult provider)).map (fun e => e.filePath)
        = files.filter (embedOk provider)
  | [] => rfl
  | f :: rest => by
    cases hf : provider f with
    | ok e => simp [embedResult, embedOk, hf, map_filePath_filterMap provider rest,
        List.filter_cons]
    | error e => simp [embedResult, embedOk, hf, map_filePath_filterMap provider rest,
        List.filter_cons]

lemma length_filterMap_embed (provider : String → Except String (List ℝ))
    (files : List String) :
    (files.filterMap (embedResult provider)).length = files.countP (embedOk provider) := by
  have h := congrArg List.length (map_filePath_filterMap provider files)
  simpa [List.countP_eq_length_filter] using h

/-! ### Concrete inputs used by witnesses and counterexamples -/

/-- A two-record store whose records both match the query `[1, 0]`
exactly. -/
noncomputable def dbPair : List DbEntry := [⟨"a", [1, 0]⟩, ⟨"b", [1, 0]⟩]

/-- A one-record store orthogonal to the query `[0, 1]`. -/
noncomputable def dbSingle : List DbEntry := [⟨"a", [1, 0]⟩]

lemma allMatches_dbPair : allMatches dbPair [1, 0] =
    [⟨⟨"a", [1, 0]⟩, 1⟩, ⟨⟨"b", [1, 0]⟩, 1⟩] := by
  simp [allMatches, dbPair, cosineSimilarity, dotProduct, sumSquares]

lemma meaningful_dbPair : meaningfulMatches dbPair [1, 0] =
    [⟨⟨"a", [1, 0]⟩, 1⟩, ⟨⟨"b", [1, 0]⟩, 1⟩] := by
  rw [meaningfulMatches, allMatches_dbPair]
  rw [show sortMatches [⟨⟨"a", [1, 0]⟩, (1 : ℝ)⟩, ⟨⟨"b", [1, 0]⟩, 1⟩]
        = [⟨⟨"a", [1, 0]⟩, 1⟩, ⟨⟨"b", [1, 0]⟩, 1⟩] by
    simp [sortMatches, List.insertionSort, List.orderedInsert, matchLe]]
  rw [List.filter_cons, List.filter_cons]
  norm_num [SIMILARITY_THRESHOLD]

lemma meaningful_dbSingle : meaningfulMatches dbSingle [0, 1] = [] := by
  have h1 : allMatches dbSingle [0, 1] = [⟨⟨"a", [1, 0]⟩, 0⟩] := by
    simp [allMatches, dbSingle, cosineSimilarity, dotProduct, sumSquares]
  rw [meaningfulMatches, h1]
  simp [sortMatches, List.insertionSort, List.orderedInsert]
  norm_num [SIMILARITY_THRESHOLD]

/-! ### C9 — zero-norm guard of `cosineSimilarity` -/

/-- C9: if either argument's sum of squares (hence its Euclidean norm
`Math.sqrt(...)`) is exactly zero, `cosineSimilarity` returns exactly `0`
through the `magnitude === 0` guard rather than dividing by zero; in
particular the similarity of any vector against an all-zero vector is
`0`. -/
theorem c9_cosine_zero_norm (v1 v2 : List ℝ)
    (h : sumSquares v1 = 0 ∨ sumSquares v2 = 0) :
    cosineSimilarity v1 v2 = 0 ∧
    ∀ (a : List ℝ) (n : ℕ), cosineSimilarity a (List.replicate n 0) = 0 := by
  have hzero : ∀ (w1 w2 : List ℝ), sumSquares w1 = 0 ∨ sumSquares w2 = 0 →
      cosineSimilarity w1 w2 = 0 := by
    intro w1 w2 hw
    rw [cosineSimilarity]
    rcases hw with hw | hw
    · rw [hw, Real.sqrt_zero]
      simp
    · rw [hw, Real.sqrt_zero]
      simp
  have hrep : ∀ n : ℕ, sumSquares (List.replicate n (0 : ℝ)) = 0 := by
    have haux : ∀ (n : ℕ) (s : ℝ),
        List.foldl (fun sum a => sum + a * a) s (List.replicate n (0 : ℝ)) = s := by
      intro n
      induction n with
      | zero => intro s; rfl
      | succ k ih => intro s; rw [List.replicate_succ, List.foldl_cons]; simpa using ih _
    intro n
    simpa [sumSquares] using haux n 0
  exact ⟨hzero v1 v2 h, fun a n => hzero a _ (Or.inr (hrep n))⟩

/-- C9 witness: the guard fires at the concrete pair `([0, 0], [3, 4])`. -/
theorem c9_witness : cosineSimilarity [0, 0] [3, 4] = 0 :=
  (c9_cosine_zero_norm [0, 0] [3, 4] (Or.inl (by simp [sumSquares]))).1

/-! ### C4 — store-load errors: missing vs. corrupt snapshot -/

/-- C4 counterexample: the claim says a corrupt snapshot fails with an
error *distinct* from the missing-snapshot error; in the code both
`fs.readFile` and `JSON.parse` throw into the same `catch` block, which
prints the same "database file not found" message, so the two load
failures are indistinguishable. -/
theorem c4_counterexample : loadDb .unparsable = loadDb .missing := rfl

/-- C4 amended: loading fails in both the missing-snapshot and the
unparsable-snapshot case, but with one and the same user-visible
"database file not found, run index first" error; a corrupt store is not
distinguished from an absent one, and in both cases the search aborts
before ranking. -/
theorem c4_load_errors :
    loadDb .missing = .error dbNotFoundMsg ∧
    loadDb .unparsable = .error dbNotFoundMsg ∧
    (∀ db : List DbEntry, loadDb (.parsed db) = .ok db) ∧
    (∀ (q : List ℝ) (topN : ℤ),
      searchModel .missing q topN = .dbLoadError ∧
      searchModel .unparsable q topN = .dbLoadError) :=
  ⟨rfl, rfl, fun _ => rfl, fun _ _ => ⟨rfl, rfl⟩⟩

/-! ### C2 — full sort, descending, stable, deterministic -/

/-- C2: the ranker sorts the full `(record, score)` list: the sorted list
is a permutation of `allMatches`, its scores are non-increasing
(`matchLe`), and restricting both lists to any one exact score value
yields the same list — i.e. records with equal scores keep their original
store order (stable sort).  The pipeline is a pure function of the store
and query, so identical inputs give identical ordered output. -/
theorem c2_sort_descending_stable (db : List DbEntry) (q : List ℝ) :
    (sortMatches (allMatches db q)).Perm (allMatches db q) ∧
    List.Sorted matchLe (sortMatches (allMatches db q)) ∧
    ∀ c : ℝ, (sortMatches (allMatches db q)).filter (fun m => decide (m.similarity = c))
        = (allMatches db q).filter (fun m => decide (m.similarity = c)) :=
  ⟨sortMatches_perm _, sortMatches_sorted _,
    fun c => filter_simClass_sortMatches c (allMatches db q)⟩

/-! ### C1 — threshold / descending order / topN cap, for positive topN -/

/-- C1: for a positive `topN`, the returned matches are records of the
store with score at least the threshold, in descending score order; the
result length is exactly `min topN (number of records scoring at least
the threshold)`; and a record scoring at least the threshold is only ever
omitted because the result already holds `topN` elements. -/
theorem c1_ranker_threshold_cap (db : List DbEntry) (q : List ℝ) (topN : ℤ)
    (h : 0 < topN) :
    (∀ m ∈ topMatches db q topN,
        m ∈ allMatches db q ∧ SIMILARITY_THRESHOLD ≤ m.similarity) ∧
    (topMatches db q topN).length
      = min topN.toNat
          ((allMatches db q).countP (fun m => decide (SIMILARITY_THRESHOLD ≤ m.similarity))) ∧
    List.Pairwise matchLe (topMatches db q topN) ∧
    (∀ m ∈ allMatches db q, SIMILARITY_THRESHOLD ≤ m.similarity →
        m ∈ topMatches db q topN ∨ (topMatches db q topN).length = topN.toNat) := by
  have hslice : topMatches db q topN = (meaningfulMatches db q).take topN.toNat := by
    rw [topMatches, jsSlice, if_pos (le_of_lt h)]
  have hperm := sortMatches_perm (allMatches db q)
  refine ⟨?_, ?_, ?_, ?_⟩
  · intro m hm
    rw [hslice] at hm
    have hm2 : m ∈ meaningfulMatches db q := (List.take_sublist _ _).subset hm
    rw [meaningfulMatches, List.mem_filter] at hm2
    exact ⟨hperm.mem_iff.mp hm2.1, of_decide_eq_true hm2.2⟩
  · rw [hslice, List.length_take, meaningfulMatches_length]
  · have hsub : List.Sublist (topMatches db q topN) (sortMatches (allMatches db q)) := by
      rw [hslice, meaningfulMatches]
      exact (List.take_sublist _ _).trans (List.filter_sublist _)
    exact List.Pairwise.sublist hsub (sortMatches_sorted (allMatches db q))
  · intro m hm hthr
    have hmem : m ∈ meaningfulMatches db q := by
      rw [meaningfulMatches, List.mem_filter]
      exact ⟨hperm.mem_iff.mpr hm, decide_eq_true hthr⟩
    rw [hslice]
    exact mem_take_or_length_take topN.toNat hmem

/-- C1 witness: the length law at the concrete store `dbPair`, query
`[1, 0]` and `topN = 3`. -/
theorem c1_witness :
    (topMatches dbPair [1, 0] 3).length
      = min (3 : ℤ).toNat
          ((allMatches dbPair [1, 0]).countP
            (fun m => decide (SIMILARITY_THRESHOLD ≤ m.similarity))) :=
  (c1_ranker_threshold_cap dbPair [1, 0] 3 (by norm_num)).2.1

/-! ### C5 — topN at most zero -/

/-- C5 counterexample: the claim says every `topN <= 0` yields an empty
match list, but `Array.prototype.slice(0, topN)` treats a negative end
index as counting from the end of the array.  With the two-record store
`dbPair` (both records scoring `1 >= 0.28`) and `topN = -1`, the ranker
returns the first of the two passing records, not an empty list. -/
theorem c5_counterexample :
    (-1 : ℤ) ≤ 0 ∧ topMatches dbPair [1, 0] (-1) ≠ [] := by
  constructor
  · norm_num
  · rw [topMatches, meaningful_dbPair]
    simp [jsSlice]

/-- C5 amended: `topN = 0` yields an empty match list without error; a
negative `topN` instead returns the threshold-passing sorted list with
its last `|topN|` elements removed (JavaScript negative-end `slice`
semantics), so the result is empty exactly when `topN = 0` or at most
`|topN|` records pass the threshold. -/
theorem c5_nonpositive_topN (db : List DbEntry) (q : List ℝ) (topN : ℤ)
    (h : topN ≤ 0) :
    (topN = 0 → topMatches db q topN = []) ∧
    (topN < 0 → topMatches db q topN
        = (meaningfulMatches db q).take
            ((meaningfulMatches db q).length - (-topN).toNat)) ∧
    (topMatches db q topN = [] ↔
        topN = 0 ∨ (meaningfulMatches db q).length ≤ (-topN).toNat) := by
  rcases lt_or_eq_of_le h with hneg | hzero
  · have hns : ¬ (0 : ℤ) ≤ topN := by omega
    have hsl : topMatches db q topN
        = (meaningfulMatches db q).take
            ((meaningfulMatches db q).length - (-topN).toNat) := by
      rw [topMatches, jsSlice, if_neg hns]
    refine ⟨fun h0 => absurd h0 (by omega), fun _ => hsl, ?_⟩
    rw [hsl]
    rw [List.take_eq_nil_iff]
    constructor
    · rintro (hlen | hnil)
      · right
        omega
      · right
        rw [hnil]
        simp
    · rintro (h0 | hle)
      · exact absurd h0 (by omega)
      · left
        omega
  · subst hzero
    have hsl : topMatches db q 0 = [] := by
      rw [topMatches, jsSlice, if_pos le_rfl]
      rfl
    exact ⟨fun _ => hsl, fun h0 => absurd h0 (by omega), by simp [hsl]⟩

/-- C5 witness: the empty-iff law instantiated at `dbPair`, query
`[1, 0]`, `topN = -1`. -/
theorem c5_witness :
    topMatches dbPair [1, 0] (-1) = [] ↔
      (-1 : ℤ) = 0 ∨ (meaningfulMatches dbPair [1, 0]).length ≤ (-(-1 : ℤ)).toNat :=
  (c5_nonpositive_topN dbPair [1, 0] (-1) (by norm_num)).2.2

/-! ### C6 — diagnostic best-below-threshold match -/

/-- C6: when no record clears the threshold but the store is non-empty,
the search reports the no-meaningful-match outcome (never the `matches`
outcome), carrying as a diagnostic the head of the unfiltered sorted
list — which is a genuine `(record, score)` pair of the corpus and scores
at least every other record. -/
theorem c6_diagnostic_best (db : List DbEntry) (q : List ℝ) (topN : ℤ)
    (h1 : meaningfulMatches db q = []) (h2 : db ≠ []) :
    searchModel (.parsed db) q topN
        = .noMeaningful (sortMatches (allMatches db q)).head? ∧
    (sortMatches (allMatches db q)).head? ≠ none ∧
    ∀ m m', (sortMatches (allMatches db q)).head? = some m →
      m' ∈ allMatches db q → m ∈ allMatches db q ∧ m'.similarity ≤ m.similarity := by
  have hlen : ¬ db.length = 0 := by
    simpa [List.length_eq_zero] using h2
  have htop : topMatches db q topN = [] := by
    rw [topMatches, h1]
    rcases le_or_lt 0 topN with hn | hn
    · rw [jsSlice, if_pos hn]
      exact List.take_nil
    · rw [jsSlice, if_neg (by omega)]
      exact List.take_nil
  have hall : allMatches db q ≠ [] := by
    rw [allMatches]
    simpa using h2
  have hsne : sortMatches (allMatches db q) ≠ [] := by
    intro hs
    have hlen2 := (sortMatches_perm (allMatches db q)).length_eq
    rw [hs] at hlen2
    simp only [List.length_nil] at hlen2
    exact hall (List.length_eq_zero.mp hlen2.symm)
  refine ⟨?_, ?_, ?_⟩
  · rw [searchModel]
    simp only [loadDb]
    rw [if_neg hlen]
    simp only [htop, List.length_nil, lt_irrefl, if_false]
  · simpa [List.head?_eq_none_iff] using hsne
  · intro m m' hhead hm'
    obtain ⟨t, hcons⟩ : ∃ t, sortMatches (allMatches db q) = m :: t := by
      cases hs : sortMatches (allMatches db q) with
      | nil => exact absurd hs hsne
      | cons a t =>
        rw [hs] at hhead
        simp only [List.head?_cons, Option.some_inj] at hhead
        exact ⟨t, by rw [hhead]⟩
    have hmmem : m ∈ allMatches db q :=
      (sortMatches_perm (allMatches db q)).mem_iff.mp (hcons ▸ List.mem_cons_self m t)
    have hm'sorted : m' ∈ sortMatches (allMatches db q) :=
      (sortMatches_perm (allMatches db q)).mem_iff.mpr hm'
    rw [hcons] at hm'sorted
    rcases List.mem_cons.mp hm'sorted with hEq | hTail
    · exact ⟨hmmem, le_of_eq (by rw [hEq])⟩
    · have hsorted := sortMatches_sorted (allMatches db q)
      rw [hcons] at hsorted
      exact ⟨hmmem, List.rel_of_sorted_cons hsorted m' hTail⟩

/-- C6 witness: the no-match branch at the concrete orthogonal store
`dbSingle` and query `[0, 1]` (score `0 < 0.28`). -/
theorem c6_witness :
    searchModel (.parsed dbSingle) [0, 1] 4
        = .noMeaningful (sortMatches (allMatches dbSingle [0, 1])).head? ∧
    (sortMatches (allMatches dbSingle [0, 1])).head? ≠ none :=
  ⟨(c6_diagnostic_best dbSingle [0, 1] 4 meaningful_dbSingle (by simp [dbSingle])).1,
   (c6_diagnostic_best dbSingle [0, 1] 4 meaningful_dbSingle (by simp [dbSingle])).2.1⟩

/-! ### Concrete trees and providers for the indexing claims -/

/-- A provider that fails on exactly one path and returns an (empty)
vector elsewhere. -/
def provSkipBad : String → Except String (List ℝ) :=
  fun f => if f = "root/bad.png" then .error "boom" else .ok []

/-- A root with an unreadable subdirectory and a sibling image file. -/
def treeUnreadableSub : FsNode :=
  .dir "root" true [.dir "sub" false [], .file "a.png"]

/-- A root with two good images around one the provider rejects. -/
def treeThree : FsNode :=
  .dir "root" true [.file "a.png", .file "bad.png", .file "b.jpg"]

/-- A root containing no media files at all. -/
def treeNoImages : FsNode := .dir "root" true [.file "notes.txt"]

/-- A pre-existing snapshot that an indexing run may or may not replace. -/
def priorSnapshot : Option (List DbEntry) := some [⟨"old", []⟩]

/-! ### C3 — unreadable subdirectory during enumeration -/

/-- C3 counterexample: on a root whose first child directory is
unreadable and whose sibling `a.png` should still be found, the v3.4.0
enumerator (cited by the claim, `search.ts` lines 431-445, which has no
`try`/`catch`) rejects with the failed directory instead of continuing,
and the whole v3.4.0 indexing run aborts with no store write — the
v3.0.1 enumerator shows the behaviour the claim describes. -/
theorem c3_counterexample :
    findRoot340 treeUnreadableSub = .error "root/sub" ∧
    indexImages340 provSkipBad none treeUnreadableSub priorSnapshot
        = (.failed, priorSnapshot) ∧
    findRoot301 treeUnreadableSub = ["root/a.png"] :=
  ⟨rfl, rfl, rfl⟩

/-- C3 amended: only the v3.0.1 enumerator recovers per directory — an
unreadable subdirectory contributes no files and its siblings are still
walked.  The v3.4.0 enumerator has no such recovery: an unreadable
subdirectory turns the entire enumeration into an error, and the v3.4.0
indexing run then aborts (outer catch) leaving the prior snapshot
untouched and writing nothing. -/
theorem c3_unreadable_dir (dirPath name : String) (children rest : List FsNode)
    (provider : String → Except String (List ℝ)) (limit : Option ℤ)
    (prior : Option (List DbEntry)) (root : FsNode) (e : String)
    (h : findRoot340 root = .error e) :
    findChildren301 dirPath (.dir name false children :: rest)
        = findChildren301 dirPath rest ∧
    findChildren340 dirPath (.dir name false children :: rest)
        = .error (pathJoin dirPath name) ∧
    indexImages340 provider limit root prior = (.failed, prior) := by
  refine ⟨?_, ?_, ?_⟩
  · rw [findChildren301, findNode301]
    simp
  · rw [findChildren340, findNode340]
    simp
  · rw [indexImages340, h]

/-- C3 witness: the amended statement at the concrete unreadable tree. -/
theorem c3_witness :
    findChildren301 "root" (.dir "sub" false [] :: [.file "a.png"])
        = findChildren301 "root" [.file "a.png"] ∧
    findChildren340 "root" (.dir "sub" false [] :: [.file "a.png"])
        = .error (pathJoin "root" "sub") ∧
    indexImages340 provSkipBad none treeUnreadableSub priorSnapshot
        = (.failed, priorSnapshot) :=
  c3_unreadable_dir "root" "sub" [] [.file "a.png"] provSkipBad none
    priorSnapshot treeUnreadableSub "root/sub" rfl

/-! ### C7 — per-item embedding failures are skipped, N records written -/

/-- C7: when the enumeration finds at least one media file (`N` provider
successes plus `M` provider failures), the uncapped v3.4.0 indexing run
completes with a written store, and that store holds exactly `N` records:
each failure is skipped without aborting the run.  (With zero discovered
files no store is written at all — that case is specified separately,
see the zero-files claim.) -/
theorem c7_resilient_indexing (provider : String → Except String (List ℝ))
    (tree : FsNode) (prior : Option (List DbEntry)) (files : List String)
    (h : findRoot340 tree = .ok files)
    (hne : 0 < files.countP (embedOk provider)
        + files.countP (fun f => !embedOk provider f)) :
    indexImages340 provider none tree prior
        = (.wrote (indexLoop provider none files 0 []),
           some (indexLoop provider none files 0 [])) ∧
    (indexLoop provider none files 0 []).length = files.countP (embedOk provider) := by
  have hfne : files ≠ [] := by
    intro hnil
    rw [hnil] at hne
    simp at hne
  have hlen : ¬ files.length = 0 := by
    simpa [List.length_eq_zero] using hfne
  constructor
  · rw [indexImages340, h]
    simp [hlen]
  · rw [indexLoop_eq_attempted]
    rw [show attemptedFiles files none = files from rfl]
    exact length_filterMap_embed provider files

/-- C7 witness: the three-file tree with one provider failure yields a
two-record store. -/
theorem c7_witness :
    indexImages340 provSkipBad none treeThree priorSnapshot
        = (.wrote (indexLoop provSkipBad none
              ["root/a.png", "root/bad.png", "root/b.jpg"] 0 []),
           some (indexLoop provSkipBad none
              ["root/a.png", "root/bad.png", "root/b.jpg"] 0 [])) ∧
    (indexLoop provSkipBad none
        ["root/a.png", "root/bad.png", "root/b.jpg"] 0 []).length
      = (["root/a.png", "root/bad.png", "root/b.jpg"] : List String).countP
          (embedOk provSkipBad) :=
  c7_resilient_indexing provSkipBad treeThree priorSnapshot
    ["root/a.png", "root/bad.png", "root/b.jpg"] rfl (by decide)

/-! ### C8 — zero media files discovered: no write, no error -/

/-- C8: when enumeration discovers zero media files, both versions of
`indexImages` return before any `writeFile`: the run reports the
empty-result outcome (`noImages`, not an error outcome) and the durable
snapshot stays exactly the prior one. -/
theorem c8_zero_files_no_write (provider : String → Except String (List ℝ))
    (limit : Option ℤ) (prior : Option (List DbEntry)) (tree : FsNode)
    (h340 : findRoot340 tree = .ok []) (h301 : findRoot301 tree = []) :
    indexImages340 provider limit tree prior = (.noImages, prior) ∧
    indexImages301 provider limit tree prior = (.noImages, prior) := by
  constructor
  · rw [indexImages340, h340]
    rfl
  · rw [indexImages301, h301]
    rfl

/-- C8 witness: a directory holding only `notes.txt` leaves the prior
snapshot in place under both versions. -/
theorem c8_witness :
    indexImages340 provSkipBad none treeNoImages priorSnapshot
        = (.noImages, priorSnapshot) ∧
    indexImages301 provSkipBad none treeNoImages priorSnapshot
        = (.noImages, priorSnapshot) :=
  c8_zero_files_no_write provSkipBad none priorSnapshot treeNoImages rfl rfl

/-! ### C10 — discovery order is preserved in the written store -/

/-- C10: the records written by an indexing run are exactly the attempted
files (all of them when the cap is falsy, else the first `limit` many)
whose embedding succeeded, with identifiers in enumeration order: the
written identifier sequence is a filter of a prefix of the enumerated
list, hence a subsequence of it with no reordering and no extras. -/
theorem c10_order_preserved (provider : String → Except String (List ℝ))
    (limit : Option ℤ) (tree : FsNode) (prior : Option (List DbEntry))
    (files : List String)
    (h : findRoot340 tree = .ok files) (hne : files ≠ []) :
    indexImages340 provider limit tree prior
        = (.wrote (indexLoop provider limit files 0 []),
           some (indexLoop provider limit files 0 [])) ∧
    (indexLoop provider limit files 0 []).map (fun e => e.filePath)
        = (attemptedFiles files limit).filter (embedOk provider) ∧
    List.IsPrefix (attemptedFiles files limit) files ∧
    List.Sublist ((indexLoop provider limit files 0 []).map (fun e => e.filePath))
      files := by
  have hlen : ¬ files.length = 0 := by
    simpa [List.length_eq_zero] using hne
  have hmap : (indexLoop provider limit files 0 []).map (fun e => e.filePath)
      = (attemptedFiles files limit).filter (embedOk provider) := by
    rw [indexLoop_eq_attempted]
    exact map_filePath_filterMap provider _
  have hpre : List.IsPrefix (attemptedFiles files limit) files := by
    cases limit with
    | none => exact List.prefix_refl files
    | some v =>
      by_cases hv : v = 0
      · simp [attemptedFiles, hv]
      · simp only [attemptedFiles, hv, if_false]
        exact List.take_prefix _ _
  refine ⟨?_, hmap, hpre, ?_⟩
  · rw [indexImages340, h]
    simp [hlen]
  · rw [hmap]
    exact (List.filter_sublist _).trans hpre.sublist

/-- C10 witness: the capped (`limit = 2`) run over the three-file tree
attempts only the first two files and writes the single success among
them, in order. -/
theorem c10_witness :
    indexImages340 provSkipBad (some 2) treeThree priorSnapshot
        = (.wrote (indexLoop provSkipBad (some 2)
              ["root/a.png", "root/bad.png", "root/b.jpg"] 0 []),
           some (indexLoop provSkipBad (some 2)
              ["root/a.png", "root/bad.png", "root/b.jpg"] 0 [])) ∧
    (indexLoop provSkipBad (some 2)
        ["root/a.png", "root/bad.png", "root/b.jpg"] 0 []).map (fun e => e.filePath)
        = (attemptedFiles ["root/a.png", "root/bad.png", "root/b.jpg"]
            (some 2)).filter (embedOk provSkipBad) ∧
    List.IsPrefix (attemptedFiles ["root/a.png", "root/bad.png", "root/b.jpg"] (some 2))
      ["root/a.png", "root/bad.png", "root/b.jpg"] ∧
    List.Sublist ((indexLoop provSkipBad (some 2)
        ["root/a.png", "root/bad.png", "root/b.jpg"] 0 []).map (fun e => e.filePath))
      ["root/a.png", "root/bad.png", "root/b.jpg"] :=
  c10_order_preserved provSkipBad (some 2) treeThree priorSnapshot
    ["root/a.png", "root/bad.png", "root/b.jpg"] rfl (by decide)

end ImageSearch
